import Mathlib

/-!
Shallow embedding of the YDB driver plugin of go-ycsb
(`db/ydb/query/query.go` and `db/ydb/ydb.go`).

Strings are embedded as Lean `String` (Go `sort.Strings` orders byte-wise,
which on UTF-8 agrees with code-point order, the order of Lean's `String`
linear order; `strings.ToUpper` is modelled on its ASCII fragment, the only
one the harness exercises).  Byte slices are `List Nat`.  Go maps are
association lists.  The rendered query text is modelled as its list of
trimmed non-empty lines, exactly the normal form the repository's own tests
(`splitAndSimplify`) compare against.
-/

namespace YdbYcsb

/-- Go `strings.ToUpper`, restricted to ASCII case mapping (the only part
the harness exercises); stated on the underlying character list. -/
def goToUpper (s : String) : String := ⟨s.data.map Char.toUpper⟩

/-- The ascending string order of Go `sort.Strings` (byte-wise, which on
UTF-8 agrees with code-point lexicographic order on the character list). -/
instance : IsTotal String (fun a b : String => a.data ≤ b.data) :=
  ⟨fun a b => le_total a.data b.data⟩

instance : IsTrans String (fun a b : String => a.data ≤ b.data) :=
  ⟨fun _ _ _ h₁ h₂ => le_trans h₁ h₂⟩

instance : IsAntisymm String (fun a b : String => a.data ≤ b.data) :=
  ⟨fun _ _ h₁ h₂ => congrArg String.mk (le_antisymm h₁ h₂)⟩

/-- Go `sort.Strings`: sort a string slice in ascending (byte-wise) order. -/
def sortStrings (l : List String) : List String :=
  List.insertionSort (fun a b : String => a.data ≤ b.data) l

/-- `toUpper` from `query.go`: upper-case every element of the slice (the Go
original overwrites the slice in place and returns it). -/
def toUpper (ss : List String) : List String := ss.map goToUpper

/-- Typed argument values handed to the vendored driver
(`ydb-go-sdk` `table/types` values, plus the plain Go values that
`sugar.ToYdbParam` converts).  `textList` is a Go `[]string` argument;
`listV`/`structV` are `types.ListValue`/`types.StructValue`. -/
inductive Value where
  | text (s : String)
  | uint64 (n : Nat)
  | bytes (b : List Nat)
  | nullableBytes (b : Option (List Nat))
  | textList (ss : List String)
  | listV (vs : List Value)
  | structV (fields : List (String × Value))

mutual

/-- Modelled from the spec: the vendored driver's
`param.Value().Type().String()` rendering of a value's YDB type (the driver
is outside this repository); the renderings are fixed by the repository's
tests (`Utf8`, `Uint64`, `List<Utf8>`, `List<Struct<key:Utf8,value:Uint64>>`). -/
def typeString : Value → String
  | .text _ => "Utf8"
  | .uint64 _ => "Uint64"
  | .bytes _ => "String"
  | .nullableBytes _ => "Optional<String>"
  | .textList _ => "List<Utf8>"
  | .listV vs => "List<" ++ typeStringHead vs ++ ">"
  | .structV fs => "Struct<" ++ typeStringFields fs ++ ">"

/-- Item type of a `types.ListValue`, taken from its first element. -/
def typeStringHead : List Value → String
  | [] => ""
  | v :: _ => typeString v

/-- Comma-separated `name:Type` list of a `types.StructValue`. -/
def typeStringFields : List (String × Value) → String
  | [] => ""
  | (n, v) :: fs => n ++ ":" ++ typeString v ++
      (match fs with | [] => "" | _ :: _ => "," ++ typeStringFields fs)

end

/-- A `sql.NamedArg`: parameter name (without the `$`) and its value. -/
structure NamedArg where
  name : String
  value : Value

/-- `asDeclares` from `query.go`: one `DECLARE $name AS Type` string per
argument (`sugar.ToYdbParam` prefixes the name with `$`), sorted ascending. -/
def asDeclares (args : List NamedArg) : List String :=
  sortStrings (args.map (fun a => "DECLARE $" ++ a.name ++ " AS " ++ typeString a.value))

/-- `asInterfaces` from `query.go`: box each named argument, preserving order
(boxing is the identity in the model). -/
def asInterfaces (args : List NamedArg) : List NamedArg := args

/-- The identities of the eleven embedded `.yql` query templates parsed in
`query.go`'s `init`. -/
inductive TemplateId where
  | createTable
  | dropTable
  | insert
  | delete
  | update
  | read
  | batchInsert
  | batchUpdate
  | batchDelete
  | batchRead
  | scan
deriving DecidableEq, Repr

/-- `commonData` from `query.go`. -/
structure CommonData where
  tablePath : String
  tableName : String
  declares : List String := []

/-- The data handed to template rendering: either a bare `commonData` or a
`commonDataWithColumns`. -/
inductive TemplateData where
  | common (d : CommonData)
  | withColumns (d : CommonData) (columns : List String)

def TemplateData.base : TemplateData → CommonData
  | .common d => d
  | .withColumns d _ => d

def TemplateData.columns : TemplateData → List String
  | .common _ => []
  | .withColumns _ cs => cs

/-- The `PRAGMA TablePathPrefix("...")` line every template emits. -/
def pragmaLine (tablePath : String) : String :=
  "PRAGMA TablePathPrefix(\"" ++ tablePath ++ "\");"

/-- One line per declare clause, terminated by `;`. -/
def declareLines (declares : List String) : List String :=
  declares.map (fun d => d ++ ";")

/-- The rendered SELECT column list: `*` when no columns were given,
otherwise the backquoted column names, comma-separated. -/
def selectList (columns : List String) : String :=
  match columns with
  | [] => "*"
  | _ :: _ => String.intercalate ", " (columns.map (fun c => "`" ++ c ++ "`"))

/-- Modelled from the spec: the embedded `.yql` template files
(`create_table.yql`, …, `scan.yql`) are not under `src/`; each template's
rendering is reconstructed, line by line, from the rendered queries the
repository's tests expect (`query_test.go`).  Rendering substitutes only the
table path prefix, table name, declare clauses and column list.  The result
is the list of trimmed non-empty lines of the rendered text. -/
def renderTemplate : TemplateId → TemplateData → List String
  | .createTable, d =>
      [pragmaLine d.base.tablePath,
       "CREATE TABLE " ++ d.base.tableName ++ " (",
       "YCSB_KEY Text NOT NULL,"]
      ++ d.columns.map (fun c => "`" ++ c ++ "` Bytes,")
      ++ ["PRIMARY KEY (YCSB_KEY)", ");"]
  | .dropTable, d =>
      [pragmaLine d.base.tablePath,
       "DROP TABLE " ++ d.base.tableName ++ ";"]
  | .insert, d =>
      pragmaLine d.base.tablePath :: declareLines d.base.declares
      ++ ["INSERT INTO " ++ d.base.tableName ++ " SELECT * FROM AS_TABLE($values);"]
  | .delete, d =>
      pragmaLine d.base.tablePath :: declareLines d.base.declares
      ++ ["DELETE FROM " ++ d.base.tableName ++ " WHERE YCSB_KEY = $key;"]
  | .update, d =>
      pragmaLine d.base.tablePath :: declareLines d.base.declares
      ++ ["UPSERT INTO " ++ d.base.tableName ++ " SELECT * FROM AS_TABLE($values);"]
  | .read, d =>
      pragmaLine d.base.tablePath :: declareLines d.base.declares
      ++ ["SELECT " ++ selectList d.columns ++ " FROM " ++ d.base.tableName
          ++ " WHERE YCSB_KEY = $key;"]
  | .batchInsert, d =>
      pragmaLine d.base.tablePath :: declareLines d.base.declares
      ++ ["UPSERT INTO " ++ d.base.tableName ++ " SELECT * FROM AS_TABLE($values);"]
  | .batchUpdate, d =>
      pragmaLine d.base.tablePath :: declareLines d.base.declares
      ++ ["UPDATE " ++ d.base.tableName ++ " ON SELECT * FROM AS_TABLE($values);"]
  | .batchDelete, d =>
      pragmaLine d.base.tablePath :: declareLines d.base.declares
      ++ ["DELETE FROM " ++ d.base.tableName ++ " WHERE YCSB_KEY IN $keys;"]
  | .batchRead, d =>
      pragmaLine d.base.tablePath :: declareLines d.base.declares
      ++ ["SELECT " ++ selectList d.columns ++ " FROM " ++ d.base.tableName
          ++ " WHERE YCSB_KEY IN $keys;"]
  | .scan, d =>
      pragmaLine d.base.tablePath :: declareLines d.base.declares
      ++ ["SELECT " ++ selectList d.columns ++ " FROM " ++ d.base.tableName
          ++ " WHERE YCSB_KEY > $key LIMIT $limit;"]

/-- The `request` struct of `query.go` (`Query()` and `Args()` are its two
projections).  `render`'s memoization layer is modelled separately
(`renderMemo` below); the constructors use direct template execution, which
is what `render` returns when the cache is consistent. -/
structure Request where
  query : List String
  args : List NamedArg := []

/-- `query.Update`. -/
def Update (tablePath tableName : String) (values : Value) : Request :=
  let args : List NamedArg := [{ name := "values", value := values }]
  { query := renderTemplate .update (.common
      { tablePath := tablePath, tableName := tableName, declares := asDeclares args }),
    args := asInterfaces args }

/-- `query.Scan`.  The Go original first sorts the caller's `columns` slice in
place, then upper-cases it in place; `toUpper (sortStrings columns)` is both
the rendered column list and the slice's final contents. -/
def Scan (tablePath tableName : String) (columns : List String)
    (key : String) (limit : Nat) : Request :=
  let args : List NamedArg :=
    [{ name := "key", value := .text key }, { name := "limit", value := .uint64 limit }]
  { query := renderTemplate .scan (.withColumns
      { tablePath := tablePath, tableName := tableName, declares := asDeclares args }
      (toUpper (sortStrings columns))),
    args := asInterfaces args }

/-- `query.BatchRead`. -/
def BatchRead (tablePath tableName : String) (columns : List String)
    (keys : List String) : Request :=
  let args : List NamedArg := [{ name := "keys", value := .textList keys }]
  { query := renderTemplate .batchRead (.withColumns
      { tablePath := tablePath, tableName := tableName, declares := asDeclares args }
      (toUpper (sortStrings columns))),
    args := asInterfaces args }

/-- `query.Read`. -/
def Read (tablePath tableName : String) (columns : List String)
    (key : String) : Request :=
  let args : List NamedArg := [{ name := "key", value := .text key }]
  { query := renderTemplate .read (.withColumns
      { tablePath := tablePath, tableName := tableName, declares := asDeclares args }
      (toUpper (sortStrings columns))),
    args := asInterfaces args }

/-- `query.BatchUpdate`. -/
def BatchUpdate (tablePath tableName : String) (values : Value) : Request :=
  let args : List NamedArg := [{ name := "values", value := values }]
  { query := renderTemplate .batchUpdate (.common
      { tablePath := tablePath, tableName := tableName, declares := asDeclares args }),
    args := asInterfaces args }

/-- `query.BatchInsert`. -/
def BatchInsert (tablePath tableName : String) (values : Value) : Request :=
  let args : List NamedArg := [{ name := "values", value := values }]
  { query := renderTemplate .batchInsert (.common
      { tablePath := tablePath, tableName := tableName, declares := asDeclares args }),
    args := asInterfaces args }

/-- `query.Insert`. -/
def Insert (tablePath tableName : String) (values : Value) : Request :=
  let args : List NamedArg := [{ name := "values", value := values }]
  { query := renderTemplate .insert (.common
      { tablePath := tablePath, tableName := tableName, declares := asDeclares args }),
    args := asInterfaces args }

/-- `query.BatchDelete`. -/
def BatchDelete (tablePath tableName : String) (keys : List String) : Request :=
  let args : List NamedArg := [{ name := "keys", value := .textList keys }]
  { query := renderTemplate .batchDelete (.common
      { tablePath := tablePath, tableName := tableName, declares := asDeclares args }),
    args := asInterfaces args }

/-- `query.Delete`. -/
def Delete (tablePath tableName : String) (key : String) : Request :=
  let args : List NamedArg := [{ name := "key", value := .text key }]
  { query := renderTemplate .delete (.common
      { tablePath := tablePath, tableName := tableName, declares := asDeclares args }),
    args := asInterfaces args }

/-- `query.DropTable` (no arguments, no declares). -/
def DropTable (tablePath tableName : String) : Request :=
  { query := renderTemplate .dropTable (.common
      { tablePath := tablePath, tableName := tableName }) }

/-- `query.CreateTable` (no arguments, no declares); builds the column list
`FIELD0 … FIELD(fieldsCount-1)`. -/
def CreateTable (tablePath tableName : String) (fieldsCount : Nat) : Request :=
  { query := renderTemplate .createTable (.withColumns
      { tablePath := tablePath, tableName := tableName }
      ((List.range fieldsCount).map (fun i => "FIELD" ++ toString i))) }

/-! ### The memoization layer of `render` (`renderMemo`, `cacheKey`) -/

/-- Go `fmt` `%+v` of a `[]string`: the elements space-separated between
square brackets, unquoted (`nil` and empty both print `[]`). -/
def fmtStrSlice (l : List String) : String :=
  "[" ++ String.intercalate " " l ++ "]"

/-- Go `%+v` of a `commonData` value: `\x7bTablePathPrefix:… TableName:…
Declares:[…]\x7d`, with the field values printed raw. -/
def fmtCommonData (d : CommonData) : String :=
  "\x7bTablePathPrefix:" ++ d.tablePath ++ " TableName:" ++ d.tableName
    ++ " Declares:" ++ fmtStrSlice d.declares ++ "\x7d"

/-- Go `%+v` of the `data any` field: a `commonData` prints as itself, a
`commonDataWithColumns` shows its embedded struct under the field name
`commonData` followed by `Columns`. -/
def fmtTemplateData : TemplateData → String
  | .common d => fmtCommonData d
  | .withColumns d cs =>
      "\x7bcommonData:" ++ fmtCommonData d ++ " Columns:" ++ fmtStrSlice cs ++ "\x7d"

/-- Modelled from the spec: the contents of the embedded `.yql` files are not
under `src/`; they are modelled as distinct opaque tokens.  In `query.go` the
raw template text serves both as the parsed template's name and as the
`query` component of the cache key; only its identity matters here. -/
def templateText : TemplateId → String
  | .createTable => "create_table.yql"
  | .dropTable => "drop_table.yql"
  | .insert => "insert.yql"
  | .delete => "delete.yql"
  | .update => "update.yql"
  | .read => "read.yql"
  | .batchInsert => "batch_insert.yql"
  | .batchUpdate => "batch_update.yql"
  | .batchDelete => "batch_delete.yql"
  | .batchRead => "batch_read.yql"
  | .scan => "scan.yql"

/-- The memo key: `fmt.Sprintf("%+v", cacheKey\x7bquery, data\x7d)`. -/
def cacheKeyFmt (queryText : String) (d : TemplateData) : String :=
  "\x7bquery:" ++ queryText ++ " data:" ++ fmtTemplateData d ++ "\x7d"

/-- The global `queryCache` `sync.Map`, as an explicit association list from
formatted keys to rendered queries. -/
abbrev Cache := List (String × List String)

/-- `renderMemo` from `query.go`, with the cache made an explicit state:
returns the rendered lines, the `fromCache` flag, and the updated cache (a
hit leaves the cache unchanged; a miss renders and stores). -/
def renderMemo (t : TemplateId) (d : TemplateData) (c : Cache) :
    List String × Bool × Cache :=
  let key := cacheKeyFmt (templateText t) d
  match c.lookup key with
  | some s => (s, true, c)
  | none => (renderTemplate t d, false, (key, renderTemplate t d) :: c)

/-- Run a sequence of `render` calls against a cache, collecting each call's
rendered lines and `fromCache` flag. -/
def runMemo : List (TemplateId × TemplateData) → Cache → List (List String × Bool)
  | [], _ => []
  | call :: rest, c =>
      let r := renderMemo call.1 call.2 c
      (r.1, r.2.1) :: runMemo rest r.2.2

/-- The cache state left behind by a sequence of `render` calls. -/
def cacheAfter : List (TemplateId × TemplateData) → Cache → Cache
  | [], c => c
  | call :: rest, c => cacheAfter rest (renderMemo call.1 call.2 c).2.2

/-! ### The adapter (`ydb.go`): driver calls, row mapping, batch binding -/

/-- A byte slice (`[]byte`). -/
abbrev Bytes := List Nat

/-- One step of the driver's row iteration: a row successfully scanned into
one byte slice per column, or a `rows.Scan` error. -/
inductive RowEvent where
  | row (cells : List Bytes)
  | scanErr (e : String)

/-- The vendored driver's response to one `QueryContext` call: a possible
query error, the result-set column names or a `rows.Columns()` error, the
row-iteration events, and the terminal `rows.Err()`.  (Everything behind
`retry.Do` is the driver's; one attempt is modelled.) -/
structure DriverResult where
  queryErr : Option String := none
  colsErr : Option String := none
  cols : List String := []
  events : List RowEvent := []
  rowsErr : Option String := none

/-- Go map assignment `m[k] = v` on an association-list map: overwrite the
entry if the key is present, append it otherwise. -/
def mapInsert {β : Type} (m : List (String × β)) (k : String) (v : β) :
    List (String × β) :=
  if m.any (fun p => p.1 = k) then
    m.map (fun p => if p.1 = k then (k, v) else p)
  else m ++ [(k, v)]

/-- The row map built inside `queryRows`'s scan loop:
`m[cols[i]] = *dest[i]` for each column index. -/
def mkRow (cols : List String) (cells : List Bytes) : List (String × Bytes) :=
  (cols.zip cells).foldl (fun m p => mapInsert m p.1 p.2) []

/-- The `for rows.Next()` loop: map each scanned row through `mkRow`,
stopping at the first `rows.Scan` error and returning the rows accumulated
up to it. -/
def scanRows (cols : List String) : List RowEvent →
    List (List (String × Bytes)) × Option String
  | [] => ([], none)
  | .row cells :: rest =>
      let r := scanRows cols rest
      (mkRow cols cells :: r.1, r.2)
  | .scanErr e :: _ => ([], some e)

/-- `ydbDB.queryRows` applied to one driver response: the accumulated row
maps together with the first error among querying, column retrieval, row
scanning and `rows.Err()`. -/
def queryRows (dr : DriverResult) : List (List (String × Bytes)) × Option String :=
  match dr.queryErr with
  | some e => ([], some e)
  | none =>
    match dr.colsErr with
    | some e => ([], some e)
    | none =>
      let r := scanRows dr.cols dr.events
      match r.2 with
      | some e => (r.1, some e)
      | none => (r.1, dr.rowsErr)

/-- The query string and argument list handed to the vendored driver's
`ExecContext`/`QueryContext`. -/
structure DriverCall where
  query : List String
  args : List NamedArg

/-- `ydbDB.execQuery`: hands `request.Query()` and `request.Args()` to the
driver's exec entry point (reached through `retry.Do`), unchanged. -/
def execQuery (exec : DriverCall → Option String) (r : Request) : Option String :=
  exec { query := r.query, args := r.args }

/-- `ydbDB.queryRows` as a function of the request: hands `request.Query()`
and `request.Args()` to the driver's query entry point, then maps the rows. -/
def queryRowsCall (drv : DriverCall → DriverResult) (r : Request) :
    List (List (String × Bytes)) × Option String :=
  queryRows (drv { query := r.query, args := r.args })

/-- `ydbDB.Read`: `(nil, err)` on error, `(nil, nil)` when no row came back,
otherwise the first row. -/
def dbRead (dr : DriverResult) : Option (List (String × Bytes)) × Option String :=
  let r := queryRows dr
  match r.2 with
  | some e => (none, some e)
  | none =>
    match r.1 with
    | [] => (none, none)
    | v :: _ => (some v, none)

/-- Upper-case every key of a caller-supplied row map.  The Go loop deletes
each key and re-inserts its upper-cased form while ranging over the map;
with an association-list map this is a plain key map (faithful whenever the
upper-cased keys do not collide). -/
def upperRow {β : Type} (kv : List (String × β)) : List (String × β) :=
  kv.map (fun p => (goToUpper p.1, p.2))

/-- The `cols` slice of `BatchInsert`/`BatchUpdate`: the sorted union of the
column names occurring in any of the (already upper-cased) value maps. -/
def batchCols (values : List (List (String × Bytes))) : List String :=
  sortStrings ((values.flatMap (fun kv => kv.map (fun p => p.1))).eraseDups)

/-- The value bound for one column of one row: the row's byte slice as a
nullable Bytes when present, a null Bytes otherwise. -/
def bindCol (row : List (String × Bytes)) (c : String) : Value :=
  match row.lookup c with
  | some v => .nullableBytes (some v)
  | none => .nullableBytes none

/-- One struct row of the `$values` list: `YCSB_KEY` first, then every
column of `cols` in order. -/
def buildRow (cols : List String) (key : String) (row : List (String × Bytes)) :
    List (String × Value) :=
  ("YCSB_KEY", .text key) :: cols.map (fun c => (c, bindCol row c))

/-- The shared binding phase of `ydbDB.BatchInsert` and `ydbDB.BatchUpdate`:
upper-cases the keys of every caller map in place, collects the sorted
column union, and builds one struct row per key.  Returns the post-state of
the caller's value maps and the bound rows. -/
def batchBind (keys : List String) (values : List (List (String × Bytes))) :
    List (List (String × Bytes)) × List (List (String × Value)) :=
  let values' := values.map upperRow
  let cols := batchCols values'
  (values', (keys.zip values').map (fun p => buildRow cols p.1 p.2))

/-- `ydbDB.BatchInsert`: bind the rows and hand them to the query layer. -/
def dbBatchInsert (tablePath tableName : String) (keys : List String)
    (values : List (List (String × Bytes))) : Request :=
  BatchInsert tablePath tableName
    (.listV ((batchBind keys values).2.map Value.structV))

/-- `ydbDB.BatchUpdate`: bind the rows and hand them to the query layer. -/
def dbBatchUpdate (tablePath tableName : String) (keys : List String)
    (values : List (List (String × Bytes))) : Request :=
  BatchUpdate tablePath tableName
    (.listV ((batchBind keys values).2.map Value.structV))

/-- The contents of the caller's `columns` slice after `Read`, `Scan` or
`BatchRead` returns: `sort.Strings` sorts it in place, then `toUpper`
overwrites each element with its upper-cased form. -/
def colsAfter (columns : List String) : List String :=
  toUpper (sortStrings columns)

/-! ### The eleven public constructor calls through the memoized `render`

In `query.go` every constructor renders through `render`, i.e. through
`renderMemo` and the shared global `queryCache`.  `Op` is one public
constructor call with its arguments; running it threads the cache. -/

/-- One call to a public constructor of `query.go`, with its arguments. -/
inductive Op where
  | createTable (tablePath tableName : String) (fieldsCount : Nat)
  | dropTable (tablePath tableName : String)
  | insert (tablePath tableName : String) (values : Value)
  | delete (tablePath tableName key : String)
  | update (tablePath tableName : String) (values : Value)
  | read (tablePath tableName : String) (columns : List String) (key : String)
  | batchInsert (tablePath tableName : String) (values : Value)
  | batchUpdate (tablePath tableName : String) (values : Value)
  | batchDelete (tablePath tableName : String) (keys : List String)
  | batchRead (tablePath tableName : String) (columns : List String) (keys : List String)
  | scan (tablePath tableName : String) (columns : List String) (key : String) (limit : Nat)

/-- The embedded template each constructor hands to `render`. -/
def Op.templateId : Op → TemplateId
  | .createTable .. => .createTable
  | .dropTable .. => .dropTable
  | .insert .. => .insert
  | .delete .. => .delete
  | .update .. => .update
  | .read .. => .read
  | .batchInsert .. => .batchInsert
  | .batchUpdate .. => .batchUpdate
  | .batchDelete .. => .batchDelete
  | .batchRead .. => .batchRead
  | .scan .. => .scan

/-- The named-argument list each constructor builds, in construction order. -/
def Op.argList : Op → List NamedArg
  | .createTable .. => []
  | .dropTable .. => []
  | .insert _ _ v => [{ name := "values", value := v }]
  | .delete _ _ key => [{ name := "key", value := .text key }]
  | .update _ _ v => [{ name := "values", value := v }]
  | .read _ _ _ key => [{ name := "key", value := .text key }]
  | .batchInsert _ _ v => [{ name := "values", value := v }]
  | .batchUpdate _ _ v => [{ name := "values", value := v }]
  | .batchDelete _ _ keys => [{ name := "keys", value := .textList keys }]
  | .batchRead _ _ _ keys => [{ name := "keys", value := .textList keys }]
  | .scan _ _ _ key limit =>
      [{ name := "key", value := .text key }, { name := "limit", value := .uint64 limit }]

/-- The template data each constructor assembles for `render`: exactly its
own table path prefix, table name, declare clauses and column list. -/
def Op.templateData : Op → TemplateData
  | .createTable p n fc => .withColumns { tablePath := p, tableName := n }
      ((List.range fc).map (fun i => "FIELD" ++ toString i))
  | .dropTable p n => .common { tablePath := p, tableName := n }
  | o@(.insert p n _) | o@(.update p n _) | o@(.batchInsert p n _)
  | o@(.batchUpdate p n _) | o@(.delete p n _) | o@(.batchDelete p n _) =>
      .common { tablePath := p, tableName := n, declares := asDeclares o.argList }
  | o@(.read p n cols _) | o@(.batchRead p n cols _) | o@(.scan p n cols _ _) =>
      .withColumns { tablePath := p, tableName := n, declares := asDeclares o.argList }
        (toUpper (sortStrings cols))

/-- The cache-free value of each constructor call: by definition the eleven
public constructors embedded above. -/
def Op.direct : Op → Request
  | .createTable p n fc => CreateTable p n fc
  | .dropTable p n => DropTable p n
  | .insert p n v => Insert p n v
  | .delete p n key => Delete p n key
  | .update p n v => Update p n v
  | .read p n cols key => Read p n cols key
  | .batchInsert p n v => BatchInsert p n v
  | .batchUpdate p n v => BatchUpdate p n v
  | .batchDelete p n keys => BatchDelete p n keys
  | .batchRead p n cols keys => BatchRead p n cols keys
  | .scan p n cols key limit => Scan p n cols key limit

/-- One constructor call as the source executes it: render the call's own
template and data through the memoized `render`, returning the request and
the updated global cache. -/
def opCall (o : Op) (c : Cache) : Request × Cache :=
  let r := renderMemo o.templateId o.templateData c
  ({ query := r.1, args := asInterfaces o.argList }, r.2.2)

/-- A sequence of constructor calls threaded through the shared cache. -/
def runOps : List Op → Cache → List Request × Cache
  | [], c => ([], c)
  | o :: os, c =>
      let r := opCall o c
      let rest := runOps os r.2
      (r.1 :: rest.1, rest.2)

/-! ### Helper lemmas -/

theorem sortStrings_sorted (l : List String) :
    List.Sorted (fun a b : String => a.data ≤ b.data) (sortStrings l) :=
  List.sorted_insertionSort _ l

theorem sortStrings_perm (l : List String) : (sortStrings l).Perm l :=
  List.perm_insertionSort _ l

theorem sortStrings_congr {l₁ l₂ : List String} (h : l₁.Perm l₂) :
    sortStrings l₁ = sortStrings l₂ :=
  List.eq_of_perm_of_sorted
    ((sortStrings_perm l₁).trans (h.trans (sortStrings_perm l₂).symm))
    (sortStrings_sorted l₁) (sortStrings_sorted l₂)

theorem Op.direct_eq (o : Op) :
    o.direct = { query := renderTemplate o.templateId o.templateData,
                 args := asInterfaces o.argList } := by
  cases o <;> rfl

theorem request_list_ext : ∀ (l₁ l₂ : List Request),
    l₁.map Request.query = l₂.map Request.query →
    l₁.map Request.args = l₂.map Request.args → l₁ = l₂ := by
  intro l₁
  induction l₁ with
  | nil =>
    intro l₂ hq _
    cases l₂ with
    | nil => rfl
    | cons b bs => simp at hq
  | cons a as ih =>
    intro l₂ hq ha
    cases l₂ with
    | nil => simp at hq
    | cons b bs =>
      simp only [List.map_cons, List.cons.injEq] at hq ha
      have hab : a = b := by
        cases a with
        | mk q1 a1 =>
          cases b with
          | mk q2 a2 => exact congrArg₂ Request.mk hq.1 ha.1
      rw [hab, ih bs hq.2 ha.2]

theorem runOps_runMemo (ops : List Op) : ∀ c : Cache,
    (runOps ops c).1.map Request.query =
      (runMemo (ops.map (fun o => (o.templateId, o.templateData))) c).map Prod.fst ∧
    (runOps ops c).1.map Request.args = ops.map (fun o => asInterfaces o.argList) ∧
    (runOps ops c).2 = cacheAfter (ops.map (fun o => (o.templateId, o.templateData))) c := by
  induction ops with
  | nil => intro c; exact ⟨rfl, rfl, rfl⟩
  | cons o os ih =>
    intro c
    have h := ih (renderMemo o.templateId o.templateData c).2.2
    refine ⟨?_, ?_, ?_⟩
    · show (renderMemo o.templateId o.templateData c).1 ::
          (runOps os (renderMemo o.templateId o.templateData c).2.2).1.map Request.query = _
      rw [h.1]; rfl
    · show asInterfaces o.argList ::
          (runOps os (renderMemo o.templateId o.templateData c).2.2).1.map Request.args = _
      rw [h.2.1]; rfl
    · show (runOps os (renderMemo o.templateId o.templateData c).2.2).2 = _
      exact h.2.2

/-- The memo key of one `render` call. -/
def keyOf (c : TemplateId × TemplateData) : String :=
  cacheKeyFmt (templateText c.1) c.2

/-- The direct (non-memoized) rendering of one `render` call. -/
def renderOf (c : TemplateId × TemplateData) : List String :=
  renderTemplate c.1 c.2

/-- A family of calls is key-consistent when any two calls whose formatted
cache keys coincide render the same string. -/
abbrev KeysConsistent (S : List (TemplateId × TemplateData)) : Prop :=
  ∀ p ∈ S, ∀ q ∈ S, keyOf p = keyOf q → renderOf p = renderOf q

/-- Every cache entry is the rendering of some call of `S` with that key. -/
def GoodCache (S : List (TemplateId × TemplateData)) (cache : Cache) : Prop :=
  ∀ k s, cache.lookup k = some s → ∃ p ∈ S, keyOf p = k ∧ renderOf p = s

theorem renderMemo_lookup_mono (t : TemplateId) (d : TemplateData)
    (cache : Cache) (k : String) (s : List String) (h : cache.lookup k = some s) :
    ((renderMemo t d cache).2.2).lookup k = some s := by
  unfold renderMemo
  cases hl : cache.lookup (cacheKeyFmt (templateText t) d) with
  | some s' => simpa [hl] using h
  | none =>
    by_cases hk : k = cacheKeyFmt (templateText t) d
    · rw [hk, hl] at h; cases h
    · simp only [hl]
      simpa [List.lookup, beq_eq_false_iff_ne.mpr hk] using h

theorem lookup_cacheAfter_mono (calls : List (TemplateId × TemplateData)) :
    ∀ (cache : Cache) (k : String) (s : List String), cache.lookup k = some s →
      (cacheAfter calls cache).lookup k = some s := by
  induction calls with
  | nil => intro cache k s h; exact h
  | cons p rest ih =>
    intro cache k s h
    exact ih _ k s (renderMemo_lookup_mono p.1 p.2 cache k s h)

theorem key_present_cacheAfter (calls : List (TemplateId × TemplateData))
    (t : TemplateId) (d : TemplateData) (h : (t, d) ∈ calls) :
    ∀ cache : Cache, ∃ s, (cacheAfter calls cache).lookup (keyOf (t, d)) = some s := by
  induction calls with
  | nil => cases h
  | cons p rest ih =>
    intro cache
    rcases List.mem_cons.mp h with heq | hmem
    · subst heq
      show ∃ s, (cacheAfter rest (renderMemo t d cache).2.2).lookup (keyOf (t, d)) = some s
      cases hl : cache.lookup (cacheKeyFmt (templateText t) d) with
      | some s =>
          refine ⟨s, lookup_cacheAfter_mono rest _ _ _ ?_⟩
          simp [renderMemo, hl, keyOf]
      | none =>
          refine ⟨renderTemplate t d, lookup_cacheAfter_mono rest _ _ _ ?_⟩
          simp [renderMemo, hl, keyOf, List.lookup]
    · exact ih hmem _

theorem runMemo_results (S : List (TemplateId × TemplateData))
    (hinj : KeysConsistent S) :
    ∀ (calls : List (TemplateId × TemplateData)), (∀ p ∈ calls, p ∈ S) →
      ∀ cache : Cache, GoodCache S cache →
        (runMemo calls cache).map Prod.fst = calls.map renderOf ∧
        GoodCache S (cacheAfter calls cache) := by
  intro calls
  induction calls with
  | nil => intro _ cache hc; exact ⟨rfl, hc⟩
  | cons p rest ih =>
    intro hsub cache hc
    have hpS : p ∈ S := hsub p (List.mem_cons_self p rest)
    have hrest : ∀ q ∈ rest, q ∈ S := fun q hq => hsub q (List.mem_cons_of_mem p hq)
    cases hl : cache.lookup (cacheKeyFmt (templateText p.1) p.2) with
    | some s =>
      have hmemo : renderMemo p.1 p.2 cache = (s, true, cache) := by
        simp [renderMemo, hl]
      rcases hc _ _ hl with ⟨q, hqS, hqk, hqr⟩
      have hrender : s = renderOf p := by
        rw [← hqr]
        exact hinj q hqS p hpS hqk
      have hih := ih hrest cache hc
      have hrun : runMemo (p :: rest) cache = (s, true) :: runMemo rest cache := by
        simp [runMemo, hmemo]
      have hafter : cacheAfter (p :: rest) cache = cacheAfter rest cache := by
        simp [cacheAfter, hmemo]
      constructor
      · rw [hrun, List.map_cons, hih.1, hrender]; rfl
      · rw [hafter]; exact hih.2
    | none =>
      have hmemo : renderMemo p.1 p.2 cache =
          (renderOf p, false, (keyOf p, renderOf p) :: cache) := by
        simp [renderMemo, hl, keyOf, renderOf]
      have hgood : GoodCache S ((keyOf p, renderOf p) :: cache) := by
        intro k s hks
        by_cases hk : k = keyOf p
        · subst hk
          refine ⟨p, hpS, rfl, ?_⟩
          simpa [List.lookup] using hks
        · have : cache.lookup k = some s := by
            simpa [List.lookup, beq_eq_false_iff_ne.mpr hk] using hks
          exact hc _ _ this
      have hih := ih hrest _ hgood
      have hrun : runMemo (p :: rest) cache =
          (renderOf p, false) :: runMemo rest ((keyOf p, renderOf p) :: cache) := by
        simp [runMemo, hmemo]
      have hafter : cacheAfter (p :: rest) cache =
          cacheAfter rest ((keyOf p, renderOf p) :: cache) := by
        simp [cacheAfter, hmemo]
      constructor
      · rw [hrun, List.map_cons, hih.1]; rfl
      · rw [hafter]; exact hih.2

theorem scanRows_all_rows (cols : List String) (cells : List (List Bytes)) :
    scanRows cols (cells.map RowEvent.row) = (cells.map (mkRow cols), none) := by
  induction cells with
  | nil => rfl
  | cons c cs ih => simp [scanRows, ih]

theorem scanRows_scan_error (cols : List String) (cells : List (List Bytes))
    (e : String) (rest : List RowEvent) :
    scanRows cols (cells.map RowEvent.row ++ RowEvent.scanErr e :: rest) =
      (cells.map (mkRow cols), some e) := by
  induction cells with
  | nil => rfl
  | cons c cs ih => simp [scanRows, ih]

theorem foldl_mapInsert_disjoint (cols : List String) :
    ∀ (cells : List Bytes) (m : List (String × Bytes)), cols.Nodup →
      (∀ p ∈ m, p.1 ∉ cols) →
      (cols.zip cells).foldl (fun m p => mapInsert m p.1 p.2) m = m ++ cols.zip cells := by
  induction cols with
  | nil => intro cells m _ _; simp
  | cons c cs ih =>
    intro cells m hnd hdis
    cases cells with
    | nil => simp
    | cons b bs =>
      have hm : m.any (fun p => p.1 = c) = false := by
        rw [List.any_eq_false]
        intro p hp
        simp only [decide_eq_true_eq]
        exact fun hpc => (hdis p hp) (hpc ▸ List.mem_cons_self c cs)
      have hstep : mapInsert m c b = m ++ [(c, b)] := by
        simp [mapInsert, hm]
      have hdis' : ∀ p ∈ m ++ [(c, b)], p.1 ∉ cs := by
        intro p hp
        rcases List.mem_append.mp hp with hpm | hpc
        · exact fun hin => (hdis p hpm) (List.mem_cons_of_mem _ hin)
        · rcases List.mem_singleton.mp hpc with rfl
          exact (List.nodup_cons.mp hnd).1
      calc ((c :: cs).zip (b :: bs)).foldl (fun m p => mapInsert m p.1 p.2) m
          = (cs.zip bs).foldl (fun m p => mapInsert m p.1 p.2) (m ++ [(c, b)]) := by
            simp [List.zip_cons_cons, hstep]
        _ = (m ++ [(c, b)]) ++ cs.zip bs :=
            ih bs (m ++ [(c, b)]) (List.nodup_cons.mp hnd).2 hdis'
        _ = m ++ (c, b) :: cs.zip bs := by simp

theorem mkRow_eq_zip (cols : List String) (cells : List Bytes) (hnd : cols.Nodup) :
    mkRow cols cells = cols.zip cells := by
  simpa [mkRow] using foldl_mapInsert_disjoint cols cells [] hnd (by simp)

/-- Template data as constructed by `Read("x TableName:y", "z", [], k)`. -/
def dColl1 : TemplateData :=
  .withColumns { tablePath := "x TableName:y", tableName := "z",
                 declares := ["DECLARE $key AS Utf8"] } []

/-- Template data as constructed by `Read("x", "y TableName:z", [], k)`. -/
def dColl2 : TemplateData :=
  .withColumns { tablePath := "x", tableName := "y TableName:z",
                 declares := ["DECLARE $key AS Utf8"] } []

/-! ### Claim theorems -/

/-- C1 counterexample: the constructors render through the memoized
`render`, whose `%+v` cache key is not injective, so the claim fails on a
reachable two-call run: after `Read("x TableName:y", "z", [], "k")` has
populated the cache, the call `Read("x", "y TableName:z", [], "k")` returns
the FIRST call's rendering — its `Query()` carries the other call's table
path prefix and table name instead of the rendering of its own
substitutions (which would differ). -/
theorem constructors_memoized_collision_counterexample :
    (Op.read "x TableName:y" "z" [] "k").templateData = dColl1 ∧
    (Op.read "x" "y TableName:z" [] "k").templateData = dColl2 ∧
    (runOps [Op.read "x TableName:y" "z" [] "k",
             Op.read "x" "y TableName:z" [] "k"] []).1.map Request.query =
      [renderTemplate .read dColl1, renderTemplate .read dColl1] ∧
    renderTemplate .read dColl1 ≠ renderTemplate .read dColl2 :=
  ⟨rfl, rfl, by decide, by decide⟩

/-- C1 (amended): every public constructor renders through the memoized
`render`; for every call history whose `%+v` cache keys are injective up to
rendering (no two calls share a formatted key unless they render the same
string — true of the benchmark's metadata, violated in the counterexample),
every call's `Query()` is exactly the rendering of its own fixed template,
with only its own table path prefix, table name, column list and declare
clauses substituted and no other template rendered, its `Args()` are its
own named arguments, and the whole run coincides with the cache-free
constructor values `Op.direct` — by definition the eleven public
constructors (`CreateTable` → `create_table.yql`, …, `Scan` → `scan.yql`). -/
theorem constructors_render_memoized (ops : List Op)
    (hinj : KeysConsistent (ops.map (fun o => (o.templateId, o.templateData)))) :
    (runOps ops []).1.map Request.query =
      ops.map (fun o => renderTemplate o.templateId o.templateData) ∧
    (runOps ops []).1 = ops.map Op.direct := by
  have hempty : GoodCache (ops.map (fun o => (o.templateId, o.templateData))) [] := by
    intro k s h
    simp [List.lookup] at h
  have base := runMemo_results _ hinj _ (fun p hp => hp) [] hempty
  have hrm := runOps_runMemo ops []
  have hq : (runOps ops []).1.map Request.query =
      ops.map (fun o => renderTemplate o.templateId o.templateData) := by
    rw [hrm.1, base.1, List.map_map]
    rfl
  refine ⟨hq, request_list_ext _ _ ?_ ?_⟩
  · rw [hq, List.map_map]
    refine List.map_congr_left (fun o _ => ?_)
    rw [Function.comp_apply, Op.direct_eq]
  · rw [hrm.2.1, List.map_map]
    refine List.map_congr_left (fun o _ => ?_)
    rw [Function.comp_apply, Op.direct_eq]

/-- A constructor-call history on the benchmark's own metadata, with a
repeated call exercising the cache hit. -/
def demoOps : List Op :=
  [Op.dropTable "/local" "t", Op.createTable "/local" "t" 2,
   Op.read "/local" "t" [] "k", Op.read "/local" "t" [] "k"]

/-- Witness for C1 (amended): on a key-consistent call history the memoized
run returns exactly the cache-free constructor values. -/
theorem constructors_render_memoized_witness :
    (runOps demoOps []).1 = demoOps.map Op.direct :=
  (constructors_render_memoized demoOps
    (by
      intro p hp q hq
      rw [show demoOps.map (fun o => (o.templateId, o.templateData)) =
        [(.dropTable, .common { tablePath := "/local", tableName := "t" }),
         (.createTable, .withColumns { tablePath := "/local", tableName := "t" }
            ["FIELD0", "FIELD1"]),
         (.read, .withColumns { tablePath := "/local", tableName := "t",
                                declares := ["DECLARE $key AS Utf8"] } []),
         (.read, .withColumns { tablePath := "/local", tableName := "t",
                                declares := ["DECLARE $key AS Utf8"] } [])] from rfl] at hp hq
      fin_cases hp <;> fin_cases hq <;> decide)).2

/-- C2: `execQuery` and `queryRows` hand the driver exactly the request's
`Query()` and `Args()`, unchanged and in order, and add nothing of their
own: their behaviour is fully determined by the driver's entry point applied
to that one call. -/
theorem adapter_forwards_query_and_args (r : Request)
    (exec : DriverCall → Option String) (drv : DriverCall → DriverResult) :
    execQuery exec r = exec { query := r.query, args := r.args } ∧
    queryRowsCall drv r = queryRows (drv { query := r.query, args := r.args }) :=
  ⟨rfl, rfl⟩

/-- C6: `CreateTable` renders a query that creates the named table with a
`YCSB_KEY Text NOT NULL` key column, exactly `fieldsCount` further columns
`FIELD0 … FIELD(fieldsCount-1)` of type `Bytes` in numeric order, and
`PRIMARY KEY (YCSB_KEY)`; the table name and path prefix appear verbatim. -/
theorem createTable_renders_fields (p n : String) (fc : Nat) :
    (CreateTable p n fc).query =
      ["PRAGMA TablePathPrefix(\"" ++ p ++ "\");",
       "CREATE TABLE " ++ n ++ " (",
       "YCSB_KEY Text NOT NULL,"]
      ++ (List.range fc).map (fun i => "`FIELD" ++ toString i ++ "` Bytes,")
      ++ ["PRIMARY KEY (YCSB_KEY)", ");"] := by
  have hm : ((List.range fc).map (fun i => "FIELD" ++ toString i)).map
      (fun c => "`" ++ c ++ "` Bytes,") =
      (List.range fc).map (fun i => "`FIELD" ++ toString i ++ "` Bytes,") := by
    rw [List.map_map]
    refine List.map_congr_left (fun i _ => ?_)
    show "`" ++ ("FIELD" ++ toString i) ++ "` Bytes," = "`FIELD" ++ toString i ++ "` Bytes,"
    simp only [show ("`FIELD" : String) = "`" ++ "FIELD" from rfl, String.append_assoc]
  calc (CreateTable p n fc).query
      = ["PRAGMA TablePathPrefix(\"" ++ p ++ "\");",
         "CREATE TABLE " ++ n ++ " (",
         "YCSB_KEY Text NOT NULL,"]
        ++ ((List.range fc).map (fun i => "FIELD" ++ toString i)).map
             (fun c => "`" ++ c ++ "` Bytes,")
        ++ ["PRIMARY KEY (YCSB_KEY)", ");"] := rfl
    _ = _ := by rw [hm]

/-- C4: every argument-taking constructor returns exactly its named
arguments, in construction order; `asDeclares` yields one
`DECLARE $name AS Type` clause per argument, sorted ascending;
`DropTable` and `CreateTable` produce no arguments and their rendered
queries contain no declare clauses. -/
theorem args_order_and_declares (p n key : String) (cols keys : List String)
    (v : Value) (limit fc : Nat) :
    (Read p n cols key).args = [{ name := "key", value := .text key }] ∧
    (Scan p n cols key limit).args =
      [{ name := "key", value := .text key },
       { name := "limit", value := .uint64 limit }] ∧
    (Delete p n key).args = [{ name := "key", value := .text key }] ∧
    (BatchRead p n cols keys).args = [{ name := "keys", value := .textList keys }] ∧
    (BatchDelete p n keys).args = [{ name := "keys", value := .textList keys }] ∧
    (Insert p n v).args = [{ name := "values", value := v }] ∧
    (Update p n v).args = [{ name := "values", value := v }] ∧
    (BatchInsert p n v).args = [{ name := "values", value := v }] ∧
    (BatchUpdate p n v).args = [{ name := "values", value := v }] ∧
    (DropTable p n).args = [] ∧
    (CreateTable p n fc).args = [] ∧
    (DropTable p n).query = [pragmaLine p, "DROP TABLE " ++ n ++ ";"] ∧
    (∀ args : List NamedArg,
      (asDeclares args).length = args.length ∧
      List.Sorted (fun a b : String => a.data ≤ b.data) (asDeclares args) ∧
      (asDeclares args).Perm
        (args.map (fun a => "DECLARE $" ++ a.name ++ " AS " ++ typeString a.value))) := by
  refine ⟨rfl, rfl, rfl, rfl, rfl, rfl, rfl, rfl, rfl, rfl, rfl, rfl,
    fun args => ⟨?_, sortStrings_sorted _, sortStrings_perm _⟩⟩
  exact ((sortStrings_perm _).length_eq).trans (List.length_map _ _)

/-- C3 counterexample: `Read` sorts the caller's columns before upper-casing
them, so for the mixed-case lists `["a", "B"]` and `["A", "b"]` — equal up
to order and letter case — the rendered queries differ, and the rendered
column list `` `B`, `A` `` is not in ascending lexicographic order
(`"A" < "B"`). -/
theorem read_columns_case_counterexample :
    (toUpper ["a", "B"]).Perm (toUpper ["A", "b"]) ∧
    (Read "/local" "t" ["a", "B"] "k").query ≠ (Read "/local" "t" ["A", "b"] "k").query ∧
    (Read "/local" "t" ["a", "B"] "k").query =
      ["PRAGMA TablePathPrefix(\"/local\");", "DECLARE $key AS Utf8;",
       "SELECT `B`, `A` FROM t WHERE YCSB_KEY = $key;"] ∧
    ("A" : String).data < "B".data := by
  refine ⟨by decide, by decide, by decide, by decide⟩

/-- C3 (amended): the SELECT clause of `Read`, `Scan` and `BatchRead` is
`SELECT *` for an empty column list; otherwise it lists the given columns
backquoted after sorting them ascending FIRST and upper-casing SECOND (so
the order is the ascending order of the original spellings, not of the
upper-cased names).  Consequently two column lists equal up to order render
identical requests; equality only up to letter case need not. -/
theorem columns_sorted_before_uppercase (p n key : String) (ks : List String)
    (limit : Nat) (cols cols₂ : List String) (h : cols.Perm cols₂) :
    Read p n cols key = Read p n cols₂ key ∧
    Scan p n cols key limit = Scan p n cols₂ key limit ∧
    BatchRead p n cols ks = BatchRead p n cols₂ ks ∧
    (Read p n [] key).query =
      [pragmaLine p, "DECLARE $key AS Utf8;",
       "SELECT * FROM " ++ n ++ " WHERE YCSB_KEY = $key;"] ∧
    (Read p n cols key).query =
      [pragmaLine p, "DECLARE $key AS Utf8;",
       "SELECT " ++ selectList (toUpper (sortStrings cols)) ++ " FROM " ++ n
         ++ " WHERE YCSB_KEY = $key;"] := by
  have hs : sortStrings cols = sortStrings cols₂ := sortStrings_congr h
  refine ⟨?_, ?_, ?_, rfl, rfl⟩ <;> simp only [Read, Scan, BatchRead, hs]

/-- Witness for C3 (amended): two orderings of the same columns render the
same request. -/
theorem columns_sorted_before_uppercase_witness :
    Read "/local" "t" ["a", "b"] "k" = Read "/local" "t" ["b", "a"] "k" :=
  (columns_sorted_before_uppercase "/local" "t" "k" [] 0 ["a", "b"] ["b", "a"]
    (by decide)).1

/-- C8 counterexample: after `Read`/`Scan`/`BatchRead` the caller's columns
slice is `toUpper (sortStrings cols)`, which for `["a", "B"]` is
`["B", "A"]` — upper-cased but NOT in ascending lexicographic order (sorting
happened before upper-casing; sorting afterwards would give `["A", "B"]`). -/
theorem columns_slice_counterexample :
    colsAfter ["a", "B"] = ["B", "A"] ∧
    ¬ List.Sorted (fun a b : String => a.data ≤ b.data) (colsAfter ["a", "B"]) ∧
    sortStrings (toUpper ["a", "B"]) = ["A", "B"] := by
  refine ⟨by decide, by decide, by decide⟩

/-- C8 (amended): the caller's columns slice is first sorted in place, then
upper-cased in place, ending as `toUpper (sortStrings cols)` — a permutation
of the upper-cased inputs, equal to what the constructors render; it is
additionally sorted whenever upper-casing fixes the elements (e.g. inputs
with no lower-case letters).  No other constructor input is modified. -/
theorem columns_slice_sorted_then_uppercased (p n key : String)
    (cols : List String) (h : ∀ s ∈ cols, goToUpper s = s) :
    colsAfter cols = toUpper (sortStrings cols) ∧
    (colsAfter cols).Perm (toUpper cols) ∧
    colsAfter cols = sortStrings cols ∧
    List.Sorted (fun a b : String => a.data ≤ b.data) (colsAfter cols) ∧
    (Read p n cols key).query = renderTemplate .read (.withColumns
      { tablePath := p, tableName := n,
        declares := asDeclares [{ name := "key", value := .text key }] }
      (colsAfter cols)) := by
  have h3 : colsAfter cols = sortStrings cols := by
    unfold colsAfter toUpper
    refine (List.map_congr_left (fun s hs => h s ?_)).trans (List.map_id _)
    exact (sortStrings_perm cols).mem_iff.mp hs
  exact ⟨rfl, (sortStrings_perm cols).map goToUpper, h3,
    h3 ▸ sortStrings_sorted cols, rfl⟩

/-- Witness for C8 (amended): an already-upper-case slice ends sorted. -/
theorem columns_slice_sorted_then_uppercased_witness :
    (∀ s ∈ (["B", "A"] : List String), goToUpper s = s) ∧
    colsAfter ["B", "A"] = sortStrings ["B", "A"] :=
  ⟨by decide,
   (columns_slice_sorted_then_uppercased "p" "t" "k" ["B", "A"] (by decide)).2.2.1⟩

/-- C5: a successful `queryRows` call yields one map per row in driver
order, each map keyed exactly by the result-set column names with the row's
cells as byte slices; an error from querying, column retrieval, row
scanning or `rows.Err()` is returned together with the rows accumulated so
far. -/
theorem queryRows_row_mapping (dr : DriverResult) :
    (∀ e, dr.queryErr = some e → queryRows dr = ([], some e)) ∧
    (∀ e, dr.queryErr = none → dr.colsErr = some e → queryRows dr = ([], some e)) ∧
    (∀ cells : List (List Bytes), dr.queryErr = none → dr.colsErr = none →
      dr.events = cells.map RowEvent.row →
      queryRows dr = (cells.map (mkRow dr.cols), dr.rowsErr)) ∧
    (∀ (cells : List (List Bytes)) (e : String) (rest : List RowEvent),
      dr.queryErr = none → dr.colsErr = none →
      dr.events = cells.map RowEvent.row ++ RowEvent.scanErr e :: rest →
      queryRows dr = (cells.map (mkRow dr.cols), some e)) ∧
    (∀ cols cells, cols.Nodup → cells.length = cols.length →
      mkRow cols cells = cols.zip cells ∧ (mkRow cols cells).map Prod.fst = cols) := by
  refine ⟨?_, ?_, ?_, ?_, ?_⟩
  · intro e he; simp [queryRows, he]
  · intro e hq hc; simp [queryRows, hq, hc]
  · intro cells hq hc hev; simp [queryRows, hq, hc, hev, scanRows_all_rows]
  · intro cells e rest hq hc hev; simp [queryRows, hq, hc, hev, scanRows_scan_error]
  · intro cols cells hnd hlen
    have hz := mkRow_eq_zip cols cells hnd
    refine ⟨hz, ?_⟩
    rw [hz]
    exact List.map_fst_zip _ _ (le_of_eq hlen.symm)

/-- Witness for C5: a two-column result set with one row and a run whose
second row fails to scan. -/
theorem queryRows_row_mapping_witness :
    queryRows { cols := ["A", "B"], events := [RowEvent.row [[1], [2]]] } =
      ([[("A", [1]), ("B", [2])]], none) ∧
    queryRows { cols := ["A"], events := [RowEvent.row [[3]], RowEvent.scanErr "boom"] } =
      ([[("A", [3])]], some "boom") := by
  constructor
  · have h := (queryRows_row_mapping
      { cols := ["A", "B"], events := [RowEvent.row [[1], [2]]] }).2.2.1
      [[[1], [2]]] rfl rfl rfl
    rw [h]; decide
  · have h := (queryRows_row_mapping
      { cols := ["A"], events := [RowEvent.row [[3]], RowEvent.scanErr "boom"] }).2.2.2.1
      [[[3]]] "boom" [] rfl rfl rfl
    rw [h]; decide

/-- C7 counterexample: the `%+v` cache key is not injective — the two
reachable `Read` calls on table path `x TableName:y` / table `z` and on
table path `x` / table `y TableName:z` format to the same key although they
render different queries, so the second memoized call returns the first
call's cached string (with `fromCache` true) instead of its own rendering. -/
theorem renderMemo_key_collision_counterexample :
    keyOf (.read, dColl1) = keyOf (.read, dColl2) ∧
    renderTemplate .read dColl1 ≠ renderTemplate .read dColl2 ∧
    (Read "x TableName:y" "z" [] "k").query = renderTemplate .read dColl1 ∧
    (Read "x" "y TableName:z" [] "k").query = renderTemplate .read dColl2 ∧
    (renderMemo .read dColl2 (renderMemo .read dColl1 []).2.2).1 ≠
      renderTemplate .read dColl2 ∧
    (renderMemo .read dColl2 (renderMemo .read dColl1 []).2.2).2.1 = true := by
  refine ⟨by decide, by decide, by decide, by decide, by decide, by decide⟩

/-- C7 (amended): for every call sequence whose formatted cache keys are
injective up to rendering (no two calls share a key unless they render the
same string — true of the benchmark's metadata, but not of all inputs, see
the counterexample), every memoized call returns exactly the direct template
execution, and a repeated call with equal arguments is a cache hit returning
the same string with `fromCache` true and the cache unchanged. -/
theorem renderMemo_memoization (calls : List (TemplateId × TemplateData))
    (hinj : KeysConsistent calls) :
    (runMemo calls []).map Prod.fst = calls.map renderOf ∧
    (∀ t d, (t, d) ∈ calls →
      renderMemo t d (cacheAfter calls []) =
        (renderTemplate t d, true, cacheAfter calls [])) := by
  have hempty : GoodCache calls [] := by
    intro k s h
    simp [List.lookup] at h
  have base := runMemo_results calls hinj calls (fun p hp => hp) [] hempty
  refine ⟨base.1, ?_⟩
  intro t d hmem
  rcases key_present_cacheAfter calls t d hmem [] with ⟨s, hs⟩
  rcases base.2 _ _ hs with ⟨q, hqS, hqk, hqr⟩
  have hrt : s = renderTemplate t d := by
    rw [← hqr, hinj q hqS (t, d) hmem hqk]; rfl
  have hsome : (cacheAfter calls []).lookup (cacheKeyFmt (templateText t) d) =
      some (renderTemplate t d) := by
    rw [← hrt]; exact hs
  simp [renderMemo, hsome]

/-- A `Read` call's template data on table `t` under `/local`. -/
def demoRead : TemplateId × TemplateData :=
  (.read, .withColumns { tablePath := "/local", tableName := "t",
                         declares := ["DECLARE $key AS Utf8"] } [])

/-- A `DropTable` call's template data on table `t` under `/local`. -/
def demoDrop : TemplateId × TemplateData :=
  (.dropTable, .common { tablePath := "/local", tableName := "t" })

/-- A call sequence with a repeated `Read` rendering. -/
def demoCalls : List (TemplateId × TemplateData) :=
  [demoRead, demoDrop, demoRead]

/-- Witness for C7 (amended): a key-consistent call sequence renders every
call as direct template execution. -/
theorem renderMemo_memoization_witness :
    (runMemo demoCalls []).map Prod.fst = demoCalls.map renderOf :=
  (renderMemo_memoization demoCalls
    (by intro p hp q hq; fin_cases hp <;> fin_cases hq <;> decide)).1

/-- C10: when the query succeeds, `ydbDB.Read` returns a nil map and a nil
error if no row came back (an absent key is not an error), and exactly the
first returned row otherwise. -/
theorem read_absent_key_not_error (dr : DriverResult)
    (h : (queryRows dr).2 = none) :
    dbRead dr = ((queryRows dr).1.head?, none) := by
  unfold dbRead
  rcases hq : queryRows dr with ⟨rows, e⟩
  rw [hq] at h
  simp only at h
  subst h
  cases rows <;> rfl

/-- Witness for C10: a driver result with one row and one with none. -/
theorem read_absent_key_not_error_witness :
    dbRead { cols := ["A"], events := [RowEvent.row [[7]]] } =
      ((queryRows { cols := ["A"], events := [RowEvent.row [[7]]] }).1.head?, none) ∧
    dbRead { cols := ["A"] } = (none, none) := by
  constructor
  · exact read_absent_key_not_error { cols := ["A"], events := [RowEvent.row [[7]]] } rfl
  · have h := read_absent_key_not_error { cols := ["A"] } rfl
    simpa using h

/-- C9: with equally long key and value lists, `BatchInsert`/`BatchUpdate`
bind one struct row per key, every row having exactly the field list
`YCSB_KEY` followed by the sorted union of the upper-cased column names of
all value maps; a column absent from a row is bound as a null Bytes value;
the keys of every caller-supplied value map are upper-cased in place. -/
theorem batch_rows_homogeneous (p n : String) (keys : List String)
    (values : List (List (String × Bytes))) (h : keys.length = values.length) :
    (batchBind keys values).1 = values.map upperRow ∧
    List.Sorted (fun a b : String => a.data ≤ b.data)
      (batchCols (values.map upperRow)) ∧
    (batchBind keys values).2.length = keys.length ∧
    (∀ r ∈ (batchBind keys values).2,
      r.map Prod.fst = "YCSB_KEY" :: batchCols (values.map upperRow)) ∧
    (∀ k row, (k, row) ∈ keys.zip (values.map upperRow) →
      ∀ c ∈ batchCols (values.map upperRow), row.lookup c = none →
        (c, Value.nullableBytes none) ∈
          buildRow (batchCols (values.map upperRow)) k row) ∧
    dbBatchInsert p n keys values =
      BatchInsert p n (.listV ((batchBind keys values).2.map Value.structV)) ∧
    dbBatchUpdate p n keys values =
      BatchUpdate p n (.listV ((batchBind keys values).2.map Value.structV)) := by
  refine ⟨rfl, sortStrings_sorted _, ?_, ?_, ?_, rfl, rfl⟩
  · show ((keys.zip (values.map upperRow)).map _).length = keys.length
    rw [List.length_map, List.length_zip, List.length_map, ← h, Nat.min_self]
  · intro r hr
    rcases List.mem_map.mp hr with ⟨pr, _, hrw⟩
    subst hrw
    simp only [buildRow, List.map_cons, List.map_map]
    exact congrArg _ (List.map_id _)
  · intro k row hmem c hc hlook
    have hin : (c, bindCol row c) ∈
        (batchCols (values.map upperRow)).map (fun c => (c, bindCol row c)) :=
      List.mem_map_of_mem _ hc
    have hb : bindCol row c = Value.nullableBytes none := by
      simp [bindCol, hlook]
    rw [hb] at hin
    exact List.mem_cons_of_mem _ hin

/-- Witness for C9: a column missing from the second row is bound null. -/
theorem batch_rows_homogeneous_witness :
    ("F1", Value.nullableBytes none) ∈
      buildRow (batchCols ([[("f1", [1])], []].map upperRow)) "k1" [] :=
  (batch_rows_homogeneous "p" "t" ["k0", "k1"] [[("f1", [1])], []]
    (by decide)).2.2.2.2.1 "k1" [] (by decide) "F1" (by decide) (by decide)

end YdbYcsb
